import Mathlib

/-!
Verification of the status-projection and keybinding-import modules of the
vscode-master-key repository, as a shallow embedding in Lean.

Strings are modelled as `List Char` (wrapped into `String` at the interface);
JavaScript numbers appearing here are either small naturals (counts) or safe
integers (the generation counter), modelled as `Nat`/`Int` with the explicit
constants `MIN_SAFE_INTEGER`/`MAX_SAFE_INTEGER`.
-/

namespace MasterKey

/-! ## Glyph replacement passes of prettifyPrefix (test/specs/utils.mts)

Each JS statement of the form str.replace(/tok(\+|$)/gi, glyph) is a global,
leftmost, non-overlapping replacement of the token followed by a plus sign
(consuming the plus) or of the token at the very end of the string.  The input
has already been uppercased, so matching the uppercase token is faithful
(ASCII model of String.prototype.toUpperCase).
-/

/-- Replacement pass for str.replace(/shift(\+|$)/gi, glyph). -/
def shiftR : List Char → List Char
  | 'S' :: 'H' :: 'I' :: 'F' :: 'T' :: '+' :: rest => '⇧' :: shiftR rest
  | ['S', 'H', 'I', 'F', 'T'] => ['⇧']
  | c :: rest => c :: shiftR rest
  | [] => []

/-- Replacement pass for str.replace(/ctrl(\+|$)/gi, glyph). -/
def ctrlR : List Char → List Char
  | 'C' :: 'T' :: 'R' :: 'L' :: '+' :: rest => '^' :: ctrlR rest
  | ['C', 'T', 'R', 'L'] => ['^']
  | c :: rest => c :: ctrlR rest
  | [] => []

/-- Replacement pass for str.replace(/alt(\+|$)/gi, glyph). -/
def altR : List Char → List Char
  | 'A' :: 'L' :: 'T' :: '+' :: rest => '⌥' :: altR rest
  | ['A', 'L', 'T'] => ['⌥']
  | c :: rest => c :: altR rest
  | [] => []

/-- Replacement pass for str.replace(/meta(\+|$)/gi, glyph). -/
def metaR : List Char → List Char
  | 'M' :: 'E' :: 'T' :: 'A' :: '+' :: rest => '◆' :: metaR rest
  | ['M', 'E', 'T', 'A'] => ['◆']
  | c :: rest => c :: metaR rest
  | [] => []

/-- Replacement pass for str.replace(/win(\+|$)/gi, glyph). -/
def winR : List Char → List Char
  | 'W' :: 'I' :: 'N' :: '+' :: rest => '⊞' :: winR rest
  | ['W', 'I', 'N'] => ['⊞']
  | c :: rest => c :: winR rest
  | [] => []

/-- Replacement pass for str.replace(/cmd(\+|$)/gi, glyph). -/
def cmdR : List Char → List Char
  | 'C' :: 'M' :: 'D' :: '+' :: rest => '⌘' :: cmdR rest
  | ['C', 'M', 'D'] => ['⌘']
  | c :: rest => c :: cmdR rest
  | [] => []

/-- Replacement pass for str.replace(/escape/gi, "ESC") (no boundary). -/
def escR : List Char → List Char
  | 'E' :: 'S' :: 'C' :: 'A' :: 'P' :: 'E' :: rest => 'E' :: 'S' :: 'C' :: escR rest
  | c :: rest => c :: escR rest
  | [] => []

/-- The replacements for ctrl and shift fused into a single pass; used to
prove that the two passes commute. -/
def csR : List Char → List Char
  | 'C' :: 'T' :: 'R' :: 'L' :: '+' :: rest => '^' :: csR rest
  | ['C', 'T', 'R', 'L'] => ['^']
  | 'S' :: 'H' :: 'I' :: 'F' :: 'T' :: '+' :: rest => '⇧' :: csR rest
  | ['S', 'H', 'I', 'F', 'T'] => ['⇧']
  | c :: rest => c :: csR rest
  | [] => []

/-- ASCII uppercase map (model of String.prototype.toUpperCase on the ASCII
key-chord strings this code is applied to). -/
def upperL (s : List Char) : List Char := s.map Char.toUpper

/-- prettifyPrefix from test/specs/utils.mts, on character lists: uppercase,
then replace shift, ctrl, alt, meta, win, cmd, escape (in the source's
statement order). -/
def prettifyPrefixList (s : List Char) : List Char :=
  escR (cmdR (winR (metaR (altR (ctrlR (shiftR (upperL s)))))))

/-- prettifyPrefix on strings. -/
def prettifyPrefixStr (s : String) : String :=
  String.mk (prettifyPrefixList s.data)

/-- The glyph rendering in the order the claim lists the mapping:
ctrl first, then shift, then alt, meta, win, cmd, escape. -/
def prettifyClaimOrderList (s : List Char) : List Char :=
  escR (cmdR (winR (metaR (altR (shiftR (ctrlR (upperL s)))))))

/-- Claim-order rendering on strings. -/
def prettifyClaimOrderStr (s : String) : String :=
  String.mk (prettifyClaimOrderList s.data)

/-! ### The ctrl and shift passes commute

The ctrl pass copies every character it does not replace, and the only
character it introduces is the caret; hence any caret-free segment of its
output is a verbatim copy of the input.  This is what makes the shift pass
blind to whether ctrl ran first, and vice versa.
-/

theorem ctrlR_take_no_caret :
    ∀ s : List Char, ∀ n, '^' ∉ (ctrlR s).take n → (ctrlR s).take n = s.take n := by
  intro s
  induction s using ctrlR.induct with
  | case1 rest ih =>
    intro n h
    rw [show ctrlR ('C' :: 'T' :: 'R' :: 'L' :: '+' :: rest) = '^' :: ctrlR rest from rfl] at h ⊢
    cases n with
    | zero => simp
    | succ m => exact absurd (by simp) h
  | case2 =>
    intro n h
    cases n with
    | zero => simp
    | succ m => exact absurd (by simp [ctrlR]) h
  | case3 c rest h1 h2 ih =>
    intro n h
    rw [ctrlR.eq_3 c rest h1 h2] at h ⊢
    cases n with
    | zero => simp
    | succ m =>
      simp only [List.take_succ_cons] at h ⊢
      have h' : '^' ∉ (ctrlR rest).take m := fun hm => h (List.mem_cons_of_mem _ hm)
      rw [ih m h']
  | case4 => intro n h; simp [ctrlR]

theorem ctrlR_no_caret :
    ∀ s : List Char, '^' ∉ ctrlR s → ctrlR s = s := by
  intro s
  induction s using ctrlR.induct with
  | case1 rest ih =>
    intro h
    exact absurd (by rw [show ctrlR ('C' :: 'T' :: 'R' :: 'L' :: '+' :: rest) = '^' :: ctrlR rest from rfl]; simp) h
  | case2 => intro h; exact absurd (by simp [ctrlR]) h
  | case3 c rest h1 h2 ih =>
    intro h
    rw [ctrlR.eq_3 c rest h1 h2] at h ⊢
    have h' : '^' ∉ ctrlR rest := fun hm => h (List.mem_cons_of_mem _ hm)
    rw [ih h']
  | case4 => intro h; rfl

theorem shiftR_take_no_glyph :
    ∀ s : List Char, ∀ n, '⇧' ∉ (shiftR s).take n → (shiftR s).take n = s.take n := by
  intro s
  induction s using shiftR.induct with
  | case1 rest ih =>
    intro n h
    rw [show shiftR ('S' :: 'H' :: 'I' :: 'F' :: 'T' :: '+' :: rest) = '⇧' :: shiftR rest from rfl] at h ⊢
    cases n with
    | zero => simp
    | succ m => exact absurd (by simp) h
  | case2 =>
    intro n h
    cases n with
    | zero => simp
    | succ m => exact absurd (by simp [shiftR]) h
  | case3 c rest h1 h2 ih =>
    intro n h
    rw [shiftR.eq_3 c rest h1 h2] at h ⊢
    cases n with
    | zero => simp
    | succ m =>
      simp only [List.take_succ_cons] at h ⊢
      have h' : '⇧' ∉ (shiftR rest).take m := fun hm => h (List.mem_cons_of_mem _ hm)
      rw [ih m h']
  | case4 => intro n h; simp [shiftR]

theorem shiftR_no_glyph :
    ∀ s : List Char, '⇧' ∉ shiftR s → shiftR s = s := by
  intro s
  induction s using shiftR.induct with
  | case1 rest ih =>
    intro h
    exact absurd (by rw [show shiftR ('S' :: 'H' :: 'I' :: 'F' :: 'T' :: '+' :: rest) = '⇧' :: shiftR rest from rfl]; simp) h
  | case2 => intro h; exact absurd (by simp [shiftR]) h
  | case3 c rest h1 h2 ih =>
    intro h
    rw [shiftR.eq_3 c rest h1 h2] at h ⊢
    have h' : '⇧' ∉ shiftR rest := fun hm => h (List.mem_cons_of_mem _ hm)
    rw [ih h']
  | case4 => intro h; rfl

theorem shiftR_ctrlR :
    ∀ s : List Char, shiftR (ctrlR s) = csR s := by
  intro s
  induction s using csR.induct with
  | case1 rest ih =>
    rw [show ctrlR ('C' :: 'T' :: 'R' :: 'L' :: '+' :: rest) = '^' :: ctrlR rest from rfl]
    rw [show shiftR ('^' :: ctrlR rest) = '^' :: shiftR (ctrlR rest) from rfl]
    rw [ih]
    rfl
  | case2 => rfl
  | case3 rest ih =>
    rw [show ctrlR ('S' :: 'H' :: 'I' :: 'F' :: 'T' :: '+' :: rest)
          = 'S' :: 'H' :: 'I' :: 'F' :: 'T' :: '+' :: ctrlR rest from rfl]
    rw [show shiftR ('S' :: 'H' :: 'I' :: 'F' :: 'T' :: '+' :: ctrlR rest)
          = '⇧' :: shiftR (ctrlR rest) from rfl]
    rw [ih]
    rfl
  | case4 => rfl
  | case5 c rest hc1 hc2 hs1 hs2 ih =>
    have ha : ∀ r1 : List Char, c = 'S' → ctrlR rest = 'H' :: 'I' :: 'F' :: 'T' :: '+' :: r1 → False := by
      intro r1 hcS hEq
      have ht : (ctrlR rest).take 5 = ['H', 'I', 'F', 'T', '+'] := by rw [hEq]; rfl
      have hnc : '^' ∉ (ctrlR rest).take 5 := by rw [ht]; decide
      have htake := ctrlR_take_no_caret rest 5 hnc
      rw [ht] at htake
      have hrest : rest = 'H' :: 'I' :: 'F' :: 'T' :: '+' :: rest.drop 5 := by
        conv_lhs => rw [← List.take_append_drop 5 rest, ← htake]
        rfl
      exact hs1 (rest.drop 5) hcS hrest
    have hb : c = 'S' → ctrlR rest = ['H', 'I', 'F', 'T'] → False := by
      intro hcS hEq
      have hfix : ctrlR rest = rest := ctrlR_no_caret rest (by rw [hEq]; decide)
      exact hs2 hcS (by rw [← hfix, hEq])
    rw [ctrlR.eq_3 c rest hc1 hc2, shiftR.eq_3 c (ctrlR rest) ha hb,
        csR.eq_5 c rest hc1 hc2 hs1 hs2, ih]
  | case6 => rfl

theorem ctrlR_shiftR :
    ∀ s : List Char, ctrlR (shiftR s) = csR s := by
  intro s
  induction s using csR.induct with
  | case1 rest ih =>
    rw [show shiftR ('C' :: 'T' :: 'R' :: 'L' :: '+' :: rest)
          = 'C' :: 'T' :: 'R' :: 'L' :: '+' :: shiftR rest from rfl]
    rw [show ctrlR ('C' :: 'T' :: 'R' :: 'L' :: '+' :: shiftR rest) = '^' :: ctrlR (shiftR rest) from rfl]
    rw [ih]
    rfl
  | case2 => rfl
  | case3 rest ih =>
    rw [show shiftR ('S' :: 'H' :: 'I' :: 'F' :: 'T' :: '+' :: rest) = '⇧' :: shiftR rest from rfl]
    rw [show ctrlR ('⇧' :: shiftR rest) = '⇧' :: ctrlR (shiftR rest) from rfl]
    rw [ih]
    rfl
  | case4 => rfl
  | case5 c rest hc1 hc2 hs1 hs2 ih =>
    have ha : ∀ r1 : List Char, c = 'C' → shiftR rest = 'T' :: 'R' :: 'L' :: '+' :: r1 → False := by
      intro r1 hcC hEq
      have ht : (shiftR rest).take 4 = ['T', 'R', 'L', '+'] := by rw [hEq]; rfl
      have hnc : '⇧' ∉ (shiftR rest).take 4 := by rw [ht]; decide
      have htake := shiftR_take_no_glyph rest 4 hnc
      rw [ht] at htake
      have hrest : rest = 'T' :: 'R' :: 'L' :: '+' :: rest.drop 4 := by
        conv_lhs => rw [← List.take_append_drop 4 rest, ← htake]
        rfl
      exact hc1 (rest.drop 4) hcC hrest
    have hb : c = 'C' → shiftR rest = ['T', 'R', 'L'] → False := by
      intro hcC hEq
      have hfix : shiftR rest = rest := shiftR_no_glyph rest (by rw [hEq]; decide)
      exact hc2 hcC (by rw [← hfix, hEq])
    rw [shiftR.eq_3 c rest hs1 hs2, ctrlR.eq_3 c (shiftR rest) ha hb,
        csR.eq_5 c rest hc1 hc2 hs1 hs2, ih]
  | case6 => rfl

theorem ctrlR_shiftR_comm (s : List Char) : ctrlR (shiftR s) = shiftR (ctrlR s) :=
  (ctrlR_shiftR s).trans (shiftR_ctrlR s).symm

theorem prettify_orders_agree (s : List Char) :
    prettifyPrefixList s = prettifyClaimOrderList s := by
  unfold prettifyPrefixList prettifyClaimOrderList
  rw [ctrlR_shiftR_comm]

/-! ## The key-status module (src keyStatus, unnamed part_001)

The module holds the mutable variables keyDisplayDelay and statusUpdates, the
status bar item, and registers updateKeyStatus on changes of the COUNT and
PREFIX entries of the state map.  Events (state-map updates, timer firings,
configuration changes) are delivered one at a time; setTimeout callbacks are
modelled as a FIFO queue of captured generation values.  The status bar item
is modelled as always created (the post-activation situation).
-/

/-- JS Number.MAX_SAFE_INTEGER. -/
def MAX_SAFE_INTEGER : Int := 9007199254740991

/-- JS Number.MIN_SAFE_INTEGER. -/
def MIN_SAFE_INTEGER : Int := -9007199254740991

/-- KEY_DISPLAY_DELAY_DEFAULT = process.env.TESTING ? 100 : 500. -/
def KEY_DISPLAY_DELAY_DEFAULT (testing : Bool) : Int :=
  if testing then 100 else 500

/-- The COUNT and PREFIX entries of the immutable state map passed to
updateKeyStatus; a missing entry is none (values.get defaults it). -/
structure KeyValues where
  count : Option Nat
  pfx : Option String
deriving DecidableEq

/-- The configuration store (collaborator), read by updateConfig. -/
structure ConfigStore where
  keyDisplayDelay : Option Int
deriving DecidableEq

/-- Module state: the two mutable variables, the status bar surface, the
queue of scheduled clear callbacks, and the current state-map entries. -/
structure SysState where
  keyDisplayDelay : Int
  statusText : String
  accessibility : String
  statusUpdates : Int
  pending : List Int
  values : KeyValues
deriving DecidableEq

/-- State right after activate: delay at its default, bar showing no keys,
statusUpdates at Number.MIN_SAFE_INTEGER, no pending timer. -/
def initState (testing : Bool) : SysState :=
  ⟨KEY_DISPLAY_DELAY_DEFAULT testing, "", "No Keys Typed", MIN_SAFE_INTEGER, [], ⟨none, none⟩⟩

/-- The increment-or-wrap of statusUpdates performed inside the timer
callback: statusUpdates + 1 while below MAX_SAFE_INTEGER, else wrap to
MIN_SAFE_INTEGER. -/
def bumpGen (g : Int) : Int :=
  if g < MAX_SAFE_INTEGER then g + 1 else MIN_SAFE_INTEGER

/-- The plannedUpdate string built by updateKeyStatus:
(count ? count + "× " : '') + prettifyPrefix(values.get(PREFIX, '')). -/
def plannedUpdate (values : KeyValues) : String :=
  (match values.count.getD 0 with
   | 0 => ""
   | c => Nat.repr c ++ "× ") ++ prettifyPrefixStr (values.pfx.getD "")

/-- updateKeyStatus: when the effective delay is positive, either write the
non-empty planned text to the status bar, or schedule a deferred clear that
captures the current statusUpdates generation. -/
def updateKeyStatus (values : KeyValues) (s : SysState) : SysState :=
  if 0 < s.keyDisplayDelay then
    if 0 < (plannedUpdate values).length then
      { s with statusText := plannedUpdate values,
               accessibility := "Keys Typed: " ++ plannedUpdate values }
    else
      { s with pending := s.pending ++ [s.statusUpdates] }
  else s

/-- A scheduled clear callback fires: it is dequeued, and only when its
captured generation still equals statusUpdates does it bump the generation
and blank the status bar. -/
def fireClear (s : SysState) : SysState :=
  match s.pending with
  | [] => s
  | c :: rest =>
    if c = s.statusUpdates then
      { s with pending := rest, statusUpdates := bumpGen s.statusUpdates,
               statusText := "", accessibility := "No Keys Typed" }
    else
      { s with pending := rest }

/-- updateConfig: re-read keyDisplayDelay from the store when called with no
event outside testing (the startup read) or with an event affecting the
master-key section; config.get(...) || DEFAULT maps an unset or zero value
to the default. -/
def jsOrDefault (v : Option Int) (d : Int) : Int :=
  match v with
  | none => d
  | some n => if n = 0 then d else n

/-- updateConfig; the optional Bool is the change event, carrying whether it
affects the master-key configuration section (none is the startup call). -/
def updateConfig (testing : Bool) (store : ConfigStore) (event : Option Bool) (s : SysState) : SysState :=
  if (event = none ∧ testing = false) ∨ event = some true then
    { s with keyDisplayDelay := jsOrDefault store.keyDisplayDelay (KEY_DISPLAY_DELAY_DEFAULT testing) }
  else s

/-- The discrete events delivered to the module. -/
inductive Event where
  | update (count : Option Nat) (pfx : Option String)
  | fire
  | config (affects : Option Bool)
deriving DecidableEq

/-- One event step: a state-map update stores the new COUNT/PREFIX entries
and runs updateKeyStatus on them; a timer expiry runs the front clear
callback; a configuration event runs updateConfig. -/
def step (testing : Bool) (store : ConfigStore) : Event → SysState → SysState
  | .update c p, s => updateKeyStatus ⟨c, p⟩ { s with values := ⟨c, p⟩ }
  | .fire, s => fireClear s
  | .config ev, s => updateConfig testing store ev s

/-- Run a sequence of events from a state. -/
def runEvents (testing : Bool) (store : ConfigStore) (es : List Event) (s : SysState) : SysState :=
  es.foldl (fun st e => step testing store e st) s

/-! ### Frame lemmas for the event handlers -/

theorem updateKeyStatus_frame (v : KeyValues) (s : SysState) :
    (updateKeyStatus v s).values = s.values ∧
    (updateKeyStatus v s).keyDisplayDelay = s.keyDisplayDelay ∧
    (updateKeyStatus v s).statusUpdates = s.statusUpdates := by
  unfold updateKeyStatus
  split
  · split
    · exact ⟨rfl, rfl, rfl⟩
    · exact ⟨rfl, rfl, rfl⟩
  · exact ⟨rfl, rfl, rfl⟩

theorem fireClear_frame (s : SysState) :
    (fireClear s).keyDisplayDelay = s.keyDisplayDelay ∧
    (fireClear s).values = s.values := by
  unfold fireClear
  cases s.pending with
  | nil => exact ⟨rfl, rfl⟩
  | cons c rest =>
    dsimp only
    by_cases hc : c = s.statusUpdates
    · rw [if_pos hc]
      exact ⟨rfl, rfl⟩
    · rw [if_neg hc]
      exact ⟨rfl, rfl⟩

/-! ### One schedule-then-fire round of the deferred status clear -/

/-- A state-map reset (count 0, empty typed keys) followed by the resulting
clear timer firing; the building block used to drive the generation counter. -/
def clearCycle (s : SysState) : SysState :=
  step false ⟨none⟩ .fire (step false ⟨none⟩ (.update (some 0) (some "")) s)

/-- Iterated schedule-then-fire rounds from the initial state. -/
def iterCycle : Nat → SysState
  | 0 => initState false
  | n + 1 => clearCycle (iterCycle n)

theorem clearCycle_spec (s : SysState) (hd : s.keyDisplayDelay = 500) (hp : s.pending = []) :
    clearCycle s =
      { s with values := ⟨some 0, some ""⟩, pending := [],
               statusUpdates := bumpGen s.statusUpdates,
               statusText := "", accessibility := "No Keys Typed" } := by
  have hlen : (plannedUpdate ⟨some 0, some ""⟩).length = 0 := rfl
  unfold clearCycle step updateKeyStatus fireClear
  simp only [hlen, hd, hp]
  norm_num

theorem iterCycle_invariant :
    ∀ n : Nat, (n : Int) ≤ MAX_SAFE_INTEGER - MIN_SAFE_INTEGER →
      (iterCycle n).statusUpdates = MIN_SAFE_INTEGER + n ∧
      (iterCycle n).pending = [] ∧
      (iterCycle n).keyDisplayDelay = 500 := by
  intro n
  induction n with
  | zero =>
    intro _
    refine ⟨?_, rfl, rfl⟩
    simp [iterCycle, initState, KEY_DISPLAY_DELAY_DEFAULT]
  | succ n ih =>
    intro h
    have hn : (n : Int) ≤ MAX_SAFE_INTEGER - MIN_SAFE_INTEGER := by push_cast at h ⊢; omega
    obtain ⟨hg, hp, hd⟩ := ih hn
    have hlt : (iterCycle n).statusUpdates < MAX_SAFE_INTEGER := by
      rw [hg]
      push_cast at h
      simp only [MAX_SAFE_INTEGER, MIN_SAFE_INTEGER] at h ⊢
      omega
    have hstep := clearCycle_spec (iterCycle n) hd hp
    refine ⟨?_, ?_, ?_⟩
    · show (clearCycle (iterCycle n)).statusUpdates = _
      rw [hstep]
      dsimp only
      rw [hg] at hlt ⊢
      unfold bumpGen
      rw [if_pos hlt]
      push_cast
      ring
    · show (clearCycle (iterCycle n)).pending = []
      rw [hstep]
    · show (clearCycle (iterCycle n)).keyDisplayDelay = 500
      rw [hstep]
      exact hd

theorem clearCycle_at_max (s : SysState) (hd : s.keyDisplayDelay = 500) (hp : s.pending = [])
    (hg : s.statusUpdates = MAX_SAFE_INTEGER) :
    (clearCycle s).statusUpdates = MIN_SAFE_INTEGER := by
  rw [clearCycle_spec s hd hp]
  simp [bumpGen, hg]

end MasterKey

namespace MasterKey

/-! ## Claim theorems for the key-status module -/

/-- C1: for every key state the status projection equals the count rendered
as "N× " when nonzero (omitted when zero or absent) followed by the typed
keys rendered by the fixed glyph mapping in the order the claim lists it
(ctrl, shift, alt, meta, win, cmd, escape after uppercasing); in particular
count 3 with typed keys "ctrl+x" projects to "3× ^X" and count 0 with empty
typed keys projects to the empty string. -/
theorem c1_status_projection :
    (∀ (c : Nat) (p : String),
      plannedUpdate ⟨some c, some p⟩ =
        (if c ≠ 0 then Nat.repr c ++ "× " else "") ++ prettifyClaimOrderStr p)
    ∧ plannedUpdate ⟨some 3, some "ctrl+x"⟩ = "3× ^X"
    ∧ plannedUpdate ⟨some 0, some ""⟩ = ""
    ∧ plannedUpdate ⟨none, none⟩ = "" := by
  refine ⟨?_, by decide, by decide, by decide⟩
  intro c p
  have hsame : prettifyPrefixStr p = prettifyClaimOrderStr p := by
    unfold prettifyPrefixStr prettifyClaimOrderStr
    rw [prettify_orders_agree]
  unfold plannedUpdate
  dsimp only
  simp only [Option.getD_some]
  rw [hsame]
  cases c with
  | zero => simp
  | succ n => simp

/-- C2 counterexample: a clear timer scheduled by an empty update keeps a
generation that still matches after a subsequent keystroke (keystroke updates
never touch the generation), so when it fires late it blanks the status text
"3× ^X" that the keystroke had set — refuting that a late-firing clear timer
never overwrites the text set by a subsequent keystroke. -/
theorem c2_counterexample :
    (runEvents false ⟨none⟩
        [.update (some 0) (some ""), .update (some 3) (some "ctrl+x")]
        (initState false)).statusText = "3× ^X"
    ∧ (runEvents false ⟨none⟩
        [.update (some 0) (some ""), .update (some 3) (some "ctrl+x"), .fire]
        (initState false)).statusText = ""
    ∧ (runEvents false ⟨none⟩
        [.update (some 0) (some ""), .update (some 3) (some "ctrl+x"), .fire]
        (initState false)).pending = [] := by
  refine ⟨by decide, by decide, by decide⟩

/-- C2 amended: a deferred status-clear callback whose captured generation no
longer matches the current generation counter has no effect beyond being
dequeued; the generation however only changes when a clear callback fires
with a matching generation, not on keystroke updates. -/
theorem c2_stale_clear_no_effect :
    ∀ (s : SysState) (c : Int) (rest : List Int),
      s.pending = c :: rest → c ≠ s.statusUpdates →
      fireClear s = { s with pending := rest } := by
  intro s c rest hp hne
  unfold fireClear
  rw [hp]
  simp [hne]

/-- Witness for the amended C2 statement at a concrete state. -/
theorem c2_stale_clear_no_effect_witness :
    fireClear ⟨500, "3× ^X", "", 7, [5], ⟨none, none⟩⟩ =
      { (⟨500, "3× ^X", "", 7, [5], ⟨none, none⟩⟩ : SysState) with pending := [] } :=
  c2_stale_clear_no_effect ⟨500, "3× ^X", "", 7, [5], ⟨none, none⟩⟩ 5 [] rfl (by decide)

/-- C5 counterexample: after exactly MAX_SAFE_INTEGER - MIN_SAFE_INTEGER
schedule-then-fire rounds the generation counter sits at MAX_SAFE_INTEGER,
and the next successful clear wraps it to MIN_SAFE_INTEGER — a strict
decrease, refuting global monotonicity. -/
theorem c5_counterexample :
    (iterCycle (18014398509481982 + 1)).statusUpdates
      < (iterCycle 18014398509481982).statusUpdates := by
  have hbound : ((18014398509481982 : Nat) : Int)
      ≤ MAX_SAFE_INTEGER - MIN_SAFE_INTEGER := by
    norm_num [MAX_SAFE_INTEGER, MIN_SAFE_INTEGER]
  obtain ⟨hg, hp, hd⟩ := iterCycle_invariant 18014398509481982 hbound
  have hmax : (iterCycle 18014398509481982).statusUpdates = MAX_SAFE_INTEGER := by
    rw [hg]
    norm_num [MAX_SAFE_INTEGER, MIN_SAFE_INTEGER]
  have hwrap : (iterCycle (18014398509481982 + 1)).statusUpdates = MIN_SAFE_INTEGER := by
    show (clearCycle (iterCycle 18014398509481982)).statusUpdates = MIN_SAFE_INTEGER
    exact clearCycle_at_max _ hd hp hmax
  rw [hwrap, hmax]
  norm_num [MAX_SAFE_INTEGER, MIN_SAFE_INTEGER]

/-- C5 amended: the generation counter never decreases at any event step
taken from a state where it is below Number.MAX_SAFE_INTEGER; the only
decrease is the explicit wrap from MAX_SAFE_INTEGER to MIN_SAFE_INTEGER. -/
theorem c5_gen_nondecreasing_below_max :
    ∀ (testing : Bool) (store : ConfigStore) (e : Event) (s : SysState),
      s.statusUpdates < MAX_SAFE_INTEGER →
      s.statusUpdates ≤ (step testing store e s).statusUpdates := by
  intro t st e s hlt
  cases e with
  | update c p =>
    have h := (updateKeyStatus_frame ⟨c, p⟩ { s with values := ⟨c, p⟩ }).2.2
    show s.statusUpdates ≤ (updateKeyStatus ⟨c, p⟩ { s with values := ⟨c, p⟩ }).statusUpdates
    rw [h]
  | fire =>
    show s.statusUpdates ≤ (fireClear s).statusUpdates
    unfold fireClear
    cases hsp : s.pending with
    | nil => exact le_refl _
    | cons c rest =>
      dsimp only
      by_cases hc : c = s.statusUpdates
      · rw [if_pos hc]
        dsimp only
        unfold bumpGen
        rw [if_pos hlt]
        omega
      · rw [if_neg hc]
  | config ev =>
    show s.statusUpdates ≤ (updateConfig t st ev s).statusUpdates
    unfold updateConfig
    split <;> exact le_refl _

/-- Witness for the amended C5 statement at a concrete state and event. -/
theorem c5_gen_nondecreasing_below_max_witness :
    (initState false).statusUpdates
      ≤ (step false ⟨none⟩ .fire (initState false)).statusUpdates :=
  c5_gen_nondecreasing_below_max false ⟨none⟩ .fire (initState false) (by decide)

/-- C4: the effective keyDisplayDelay is changed only by the configuration
handler — a status-update step is independent of the configuration store and
preserves the delay, a timer firing preserves it, a configuration step
preserves it unless it is the startup read (outside testing) or a change
event affecting the master-key section, in which case it becomes the stored
value with zero/unset defaulted. -/
theorem c4_delay_config_only :
    (∀ (testing : Bool) (st st2 : ConfigStore) (c : Option Nat) (p : Option String) (s : SysState),
        step testing st (.update c p) s = step testing st2 (.update c p) s)
    ∧ (∀ (testing : Bool) (st : ConfigStore) (c : Option Nat) (p : Option String) (s : SysState),
        (step testing st (.update c p) s).keyDisplayDelay = s.keyDisplayDelay)
    ∧ (∀ (testing : Bool) (st : ConfigStore) (s : SysState),
        (step testing st .fire s).keyDisplayDelay = s.keyDisplayDelay)
    ∧ (∀ (testing : Bool) (st : ConfigStore) (ev : Option Bool) (s : SysState),
        ¬((ev = none ∧ testing = false) ∨ ev = some true) →
        (step testing st (.config ev) s).keyDisplayDelay = s.keyDisplayDelay)
    ∧ (∀ (testing : Bool) (st : ConfigStore) (ev : Option Bool) (s : SysState),
        ((ev = none ∧ testing = false) ∨ ev = some true) →
        (step testing st (.config ev) s).keyDisplayDelay
          = jsOrDefault st.keyDisplayDelay (KEY_DISPLAY_DELAY_DEFAULT testing)) := by
  refine ⟨fun _ _ _ _ _ _ => rfl, ?_, ?_, ?_, ?_⟩
  · intro t st c p s
    exact (updateKeyStatus_frame ⟨c, p⟩ { s with values := ⟨c, p⟩ }).2.1
  · intro t st s
    exact (fireClear_frame s).1
  · intro t st ev s hneg
    show (updateConfig t st ev s).keyDisplayDelay = s.keyDisplayDelay
    unfold updateConfig
    rw [if_neg hneg]
  · intro t st ev s hpos
    show (updateConfig t st ev s).keyDisplayDelay = _
    unfold updateConfig
    rw [if_pos hpos]

/-- Witness for C4 at a concrete configuration event. -/
theorem c4_delay_config_only_witness :
    (step false ⟨some 7⟩ (.config (some true)) (initState false)).keyDisplayDelay
      = jsOrDefault (some 7) (KEY_DISPLAY_DELAY_DEFAULT false) :=
  c4_delay_config_only.2.2.2.2 false ⟨some 7⟩ (some true) (initState false) (Or.inr rfl)

/-- C7: updateKeyStatus never perturbs the key state: the stored COUNT and
PREFIX entries are identical before and after the call, and neither the
effective delay nor the generation counter changes — the call only updates
the status surface (text, accessibility label, pending clear timer). -/
theorem c7_update_key_status_frame :
    ∀ (v : KeyValues) (s : SysState),
      (updateKeyStatus v s).values = s.values ∧
      (updateKeyStatus v s).keyDisplayDelay = s.keyDisplayDelay ∧
      (updateKeyStatus v s).statusUpdates = s.statusUpdates :=
  fun v s => updateKeyStatus_frame v s

/-- C8: a configured keyDisplayDelay of 0 (or an unset one) is mapped by the
configuration handler to the built-in default, which is positive, so the
display-suppression branch (requiring an effective delay of at most 0) is
not reachable by configuring 0. -/
theorem c8_zero_delay_default :
    ∀ (testing : Bool) (store : ConfigStore) (ev : Option Bool) (s : SysState),
      (store.keyDisplayDelay = none ∨ store.keyDisplayDelay = some 0) →
      ((ev = none ∧ testing = false) ∨ ev = some true) →
      (step testing store (.config ev) s).keyDisplayDelay = KEY_DISPLAY_DELAY_DEFAULT testing ∧
      0 < (step testing store (.config ev) s).keyDisplayDelay := by
  intro t st ev s hv hcond
  have hstep : (step t st (.config ev) s).keyDisplayDelay
      = jsOrDefault st.keyDisplayDelay (KEY_DISPLAY_DELAY_DEFAULT t) := by
    show (updateConfig t st ev s).keyDisplayDelay = _
    unfold updateConfig
    rw [if_pos hcond]
  rw [hstep]
  rcases hv with h | h <;> rw [h] <;> cases t <;>
    simp [jsOrDefault, KEY_DISPLAY_DELAY_DEFAULT]

/-- Witness for C8: configuring 0 outside testing yields the default 500. -/
theorem c8_zero_delay_default_witness :
    (step false ⟨some 0⟩ (.config none) (initState false)).keyDisplayDelay
        = KEY_DISPLAY_DELAY_DEFAULT false ∧
    0 < (step false ⟨some 0⟩ (.config none) (initState false)).keyDisplayDelay :=
  c8_zero_delay_default false ⟨some 0⟩ none (initState false)
    (Or.inr rfl) (Or.inl ⟨rfl, rfl⟩)

/-! ## importBindings (src/web/keybindings.ts)

parseBindingFile and showParseError come from modules outside the given
sources; only their interface matters here: the parse either succeeds with
the parsed data (whose define section may carry validModes) or fails with
the ordered list of issues of the validation error.  importBindings is
modelled by the list of observable actions it performs from the parse
result on.
-/

/-- Result of parseBindingFile: success (carrying the optional
define.validModes of the parsed data) or failure with the ordered issue
list of the validation error. -/
inductive ParseResult where
  | success (validModes : Option (List String))
  | failure (issues : List String)

/-- Observable actions of importBindings. -/
inductive ImportAction where
  | insertIntoConfig
  | updateValidModes (modes : List String)
  | reportParseIssue (issue : String)
deriving DecidableEq

/-- importBindings from the parse result on: on success, insert the processed
bindings into the keybindings configuration and update validModes when the
preset defines them; on failure, report each issue of issues.slice(0, 3) and
do nothing else. -/
def importBindings : ParseResult → List ImportAction
  | .success validModes =>
    ImportAction.insertIntoConfig ::
      (match validModes with
       | some ms => [ImportAction.updateValidModes ms]
       | none => [])
  | .failure issues => (issues.take 3).map ImportAction.reportParseIssue

/-- C3: on a parse failure importBindings reports each of the first three
issues (all of them when there are fewer than three) as independent
diagnostics, inserts no keybindings and updates no configuration (every
action it takes is a report), and returns normally. -/
theorem c3_import_failure_reports :
    ∀ issues : List String,
      importBindings (.failure issues) = (issues.take 3).map ImportAction.reportParseIssue
      ∧ (∀ a ∈ importBindings (.failure issues), ∃ i, a = ImportAction.reportParseIssue i)
      ∧ (importBindings (.failure issues)).length = min 3 issues.length
      ∧ (issues.length ≤ 3 →
          importBindings (.failure issues) = issues.map ImportAction.reportParseIssue) := by
  intro issues
  refine ⟨rfl, ?_, ?_, ?_⟩
  · intro a ha
    simp only [importBindings, List.mem_map] at ha
    obtain ⟨i, _, hi⟩ := ha
    exact ⟨i, hi.symm⟩
  · simp [importBindings]
  · intro hle
    simp [importBindings, List.take_of_length_le hle]

/-- Witness for C3 at a concrete two-issue failure. -/
theorem c3_import_failure_reports_witness :
    importBindings (.failure ["bad key", "bad mode"])
      = [ImportAction.reportParseIssue "bad key", ImportAction.reportParseIssue "bad mode"] :=
  (c3_import_failure_reports ["bad key", "bad mode"]).2.2.2 (by decide)

/-! ## Count accumulation (C6) -/

/-- Modelled from the spec: the count accumulation of the runtime
key-sequence state machine (src/commands/count.ts is not among the given
sources); the spec states "accumulated digits form a base-10 integer", and
the in-source test model (test/specs/utils.mts, enterModalKeys) accumulates
count = count * 10 + keyCount per digit. -/
def accumulateCount (digits : List Nat) : Nat :=
  digits.foldl (fun acc d => 10 * acc + d) 0

/-- Modelled from the spec: the context built at dispatch time from
count, mode and the typed keys. -/
structure InvocationContext where
  count : Nat
  mode : String
  typed : String

/-- Modelled from the spec: dispatch supplies the accumulated count to the
command invocation context. -/
def invocationContext (digits : List Nat) (mode typed : String) : InvocationContext :=
  ⟨accumulateCount digits, mode, typed⟩

theorem accumulate_go (a : Nat) (ds : List Nat) :
    ds.foldl (fun acc d => 10 * acc + d) a
      = a * 10 ^ ds.length + Nat.ofDigits 10 ds.reverse := by
  induction ds generalizing a with
  | nil => simp [Nat.ofDigits]
  | cons d t ih =>
    simp only [List.foldl_cons, List.reverse_cons, ih, List.length_cons]
    rw [Nat.ofDigits_append]
    simp only [Nat.ofDigits_singleton, List.length_reverse]
    ring

/-- C6: the digits typed before a bound chord accumulate as the base-10
integer they spell (each digit d takes the count to 10 times the previous
count plus d), and that count is the one rendered in the "N× " status text
and supplied to the command invocation context. -/
theorem c6_count_base10 :
    ∀ ds : List Nat, (∀ d ∈ ds, d < 10) →
      accumulateCount ds = Nat.ofDigits 10 ds.reverse
      ∧ (∀ d, accumulateCount (ds ++ [d]) = 10 * accumulateCount ds + d)
      ∧ (∀ mode typed, (invocationContext ds mode typed).count = Nat.ofDigits 10 ds.reverse)
      ∧ (accumulateCount ds ≠ 0 → ∀ p,
          plannedUpdate ⟨some (accumulateCount ds), some p⟩
            = Nat.repr (accumulateCount ds) ++ "× " ++ prettifyPrefixStr p) := by
  intro ds _
  have hval : accumulateCount ds = Nat.ofDigits 10 ds.reverse := by
    unfold accumulateCount
    rw [accumulate_go]
    simp
  refine ⟨hval, ?_, ?_, ?_⟩
  · intro d
    unfold accumulateCount
    simp [List.foldl_append]
  · intro mode typed
    exact hval
  · intro hne p
    unfold plannedUpdate
    dsimp only
    simp only [Option.getD_some]

/-- Witness for C6: the digits 1, 2, 3 spell one hundred twenty-three. -/
theorem c6_count_base10_witness :
    accumulateCount [1, 2, 3] = Nat.ofDigits 10 ([1, 2, 3].reverse)
    ∧ accumulateCount [1, 2, 3] = 123 :=
  ⟨(c6_count_base10 [1, 2, 3] (by decide)).1, by decide⟩

/-! ## replaceAll (src/web/keybindings.ts)

The claim quantifies over every regex carrying the g flag; the model
instantiates the regex at literal-text patterns (regexes without
metacharacters), which is all the refutation needs.  regex.exec under the g
flag is modelled by leftmost-occurrence search starting at lastIndex, which
then advances to the end of the match.  The fuel bound str.length + 1 is
never exhausted for a non-empty pattern because lastIndex strictly
increases at each iteration.
-/

/-- Index of the leftmost occurrence of pat in s, offset by i (so that
firstOccur pat (s.drop i) i is the leftmost occurrence at position at
least i in s). -/
def firstOccur (pat : List Char) : List Char → Nat → Option Nat
  | s, i =>
    if pat.isPrefixOf s then some i
    else
      match s with
      | [] => none
      | _ :: t => firstOccur pat t (i + 1)

/-- str.slice(a, b) for 0 ≤ a and 0 ≤ b ≤ str.length (empty when a ≥ b). -/
def jsSliceNN (s : List Char) (a b : Nat) : List Char :=
  (s.drop a).take (b - a)

/-- str.slice(a, -1): up to the second-to-last character. -/
def jsSliceToEndMinusOne (s : List Char) (a : Nat) : List Char :=
  (s.drop a).take (s.length - 1 - a)

/-- The exec loop of replaceAll: result += str.slice(offset, m.index);
result += replacement; offset += m[0].length; and on exhaustion
result + str.slice(offset, -1). -/
def replaceAllGo (pat rep s : List Char) : Nat → Nat → List Char → Nat → List Char
  | offset, _, acc, 0 => acc ++ jsSliceToEndMinusOne s offset
  | offset, lastIndex, acc, fuel + 1 =>
    match firstOccur pat (s.drop lastIndex) lastIndex with
    | none => acc ++ jsSliceToEndMinusOne s offset
    | some idx =>
      replaceAllGo pat rep s (offset + pat.length) (idx + pat.length)
        (acc ++ jsSliceNN s offset idx ++ rep) fuel

/-- replaceAll(str, regex, replacement) for a literal-text global regex. -/
def replaceAll (str : String) (pat : String) (replacement : String) : String :=
  String.mk (replaceAllGo pat.data replacement.data str.data 0 0 [] (str.length + 1))

/-- C9 evaluation at the failing inputs: with no match at all the final
character of the input is silently dropped (str.slice(offset, -1)), and
with a match the offset bookkeeping (offset += m[0].length instead of
offset = m.index + m[0].length) re-emits already-consumed text — the code
returns "ab" and "aXb" where the claim requires "abc" and "aXc". -/
theorem c9_replace_all_eval :
    replaceAll "abc" "z" "X" = "ab"
    ∧ replaceAll "abc" "b" "X" = "aXb"
    ∧ "ab" ≠ "abc" ∧ "aXb" ≠ "aXc" := by
  refine ⟨by decide, by decide, by decide, by decide⟩

/-! ## insertKeybindingsIntoConfig (src/web/keybindings.ts)

The document of the opened global keybindings file is modelled as its text;
findText (via the searchMatches collaborator) is leftmost substring search.
The two edits are modelled on the text: the both-markers branch replaces
from the end of the line preceding the start marker through the start of
the line four past the end marker, the no-markers branch inserts right
after the opening bracket.  The active editor is taken to exist (the file
was just opened).
-/

/-- findText: position of the leftmost occurrence of pat in doc. -/
def strIndexOf (doc pat : String) : Option Nat :=
  firstOccur pat.data doc.data 0

/-- Line number (0-based) of flat position i in doc. -/
def lineOfPos (doc : String) (i : Nat) : Nat :=
  (doc.data.take i).count '\n'

/-- The replacement of the automated-bindings region: keep the lines before
the start marker's line (the range starts at the end of the line above it),
then the new text, then the lines from four past the end marker's line. -/
def replaceAutomated (doc : String) (si ei : Nat) (text : String) : String :=
  String.intercalate "\n" ((doc.splitOn "\n").take (lineOfPos doc si))
    ++ text
    ++ String.intercalate "\n" ((doc.splitOn "\n").drop (lineOfPos doc ei + 4))

/-- Insertion of text at flat position k (right after the bracket). -/
def insertAfter (doc : String) (k : Nat) (text : String) : String :=
  String.mk (doc.data.take k) ++ text ++ String.mk (doc.data.drop k)

/-- The messages insertKeybindingsIntoConfig can show. -/
inductive ConfigMsg where
  | errorNoBracket
  | errorAlteredMarkers
  | infoUpdated
  | infoInserted
deriving DecidableEq

/-- insertKeybindingsIntoConfig on the opened keybindings document: no
opening bracket is an error with no edit; both automated-bindings markers
present replaces the old region; exactly one marker present is an error
with no edit; neither marker present inserts after the bracket. -/
def insertKeybindingsIntoConfig (doc bindingsToInsert : String) : String × List ConfigMsg :=
  match strIndexOf doc "[" with
  | none => (doc, [ConfigMsg.errorNoBracket])
  | some bracketIdx =>
    match strIndexOf doc "AUTOMATED BINDINGS START",
          strIndexOf doc "AUTOMATED BINDINGS END" with
    | some si, some ei => (replaceAutomated doc si ei bindingsToInsert, [ConfigMsg.infoUpdated])
    | some _, none => (doc, [ConfigMsg.errorAlteredMarkers])
    | none, some _ => (doc, [ConfigMsg.errorAlteredMarkers])
    | none, none =>
      (insertAfter doc (bracketIdx + 1) ("\n" ++ bindingsToInsert), [ConfigMsg.infoInserted])

/-- C10: the keybindings document is modified only when the opening bracket
is found and either both or neither automated-bindings marker is present;
a missing bracket, or exactly one marker, reports an error and leaves the
document unchanged. -/
theorem c10_insert_branches :
    ∀ doc text : String,
      (strIndexOf doc "[" = none →
        insertKeybindingsIntoConfig doc text = (doc, [ConfigMsg.errorNoBracket]))
      ∧ (∀ b si, strIndexOf doc "[" = some b →
          strIndexOf doc "AUTOMATED BINDINGS START" = some si →
          strIndexOf doc "AUTOMATED BINDINGS END" = none →
          insertKeybindingsIntoConfig doc text = (doc, [ConfigMsg.errorAlteredMarkers]))
      ∧ (∀ b ei, strIndexOf doc "[" = some b →
          strIndexOf doc "AUTOMATED BINDINGS START" = none →
          strIndexOf doc "AUTOMATED BINDINGS END" = some ei →
          insertKeybindingsIntoConfig doc text = (doc, [ConfigMsg.errorAlteredMarkers]))
      ∧ (∀ b si ei, strIndexOf doc "[" = some b →
          strIndexOf doc "AUTOMATED BINDINGS START" = some si →
          strIndexOf doc "AUTOMATED BINDINGS END" = some ei →
          insertKeybindingsIntoConfig doc text
            = (replaceAutomated doc si ei text, [ConfigMsg.infoUpdated]))
      ∧ (∀ b, strIndexOf doc "[" = some b →
          strIndexOf doc "AUTOMATED BINDINGS START" = none →
          strIndexOf doc "AUTOMATED BINDINGS END" = none →
          insertKeybindingsIntoConfig doc text
            = (insertAfter doc (b + 1) ("\n" ++ text), [ConfigMsg.infoInserted])) := by
  intro doc text
  refine ⟨?_, ?_, ?_, ?_, ?_⟩
  · intro h
    simp [insertKeybindingsIntoConfig, h]
  · intro b si h1 h2 h3
    simp [insertKeybindingsIntoConfig, h1, h2, h3]
  · intro b ei h1 h2 h3
    simp [insertKeybindingsIntoConfig, h1, h2, h3]
  · intro b si ei h1 h2 h3
    simp [insertKeybindingsIntoConfig, h1, h2, h3]
  · intro b h1 h2 h3
    simp [insertKeybindingsIntoConfig, h1, h2, h3]

/-- Witness for C10 at a document with the bracket and only the start
marker: the document is left unchanged and the marker error is shown. -/
theorem c10_insert_branches_witness :
    insertKeybindingsIntoConfig "[ AUTOMATED BINDINGS START" "xyz"
      = ("[ AUTOMATED BINDINGS START", [ConfigMsg.errorAlteredMarkers]) :=
  (c10_insert_branches "[ AUTOMATED BINDINGS START" "xyz").2.1 0 2
    (by decide) (by decide) (by decide)

end MasterKey
